import Mathlib

/-!
Verification of the Theia debug session engine against its specification.

The development shallowly embeds the parts of
`packages/debug/src/browser/debug-session.ts` and
`packages/debug/src/browser/debug-session-manager.ts` that the verified
properties are about.  JavaScript `Map` objects become insertion-ordered
association lists, mutation becomes explicit state passing, promises become
`Except` values, and object identity (where a property is about it) becomes
an explicit allocation tag.  The thread value class
(`model/debug-thread.ts`) and the `p-debounce` wrapper are not part of the
sources and are modelled from the specification; their definitions say so in
their doc comments.

The file is organised as definitions first, theorems second.
-/

/-! ## Basic protocol data -/

/-- Debug state of a thread or of a session, mirroring the `DebugState`
enumeration used by the sources (`Inactive` is the session state when no
current thread exists). -/
inductive DebugState where
  | Inactive
  | Running
  | Stopped
deriving DecidableEq, Repr

/-- Stop details carried by a `stopped` event (reason, optional thread id,
preserve-focus hint, all-threads-stopped flag).  Optional protocol fields
that the embedded code reads with JavaScript truthiness are `Option`/`Bool`
valued accordingly. -/
structure StoppedDetails where
  reason : String
  threadId : Option Nat
  preserveFocusHint : Bool
  allThreadsStopped : Bool
deriving DecidableEq, Repr

/-- Raw protocol thread descriptor (`DebugProtocol.Thread`): numeric id and
display name. -/
structure RawThread where
  id : Nat
  name : String
deriving DecidableEq, Repr

/-! ## JavaScript Map embedding -/

/-- Lookup in an association list used as a JavaScript `Map` (first matching
key wins; the maps built below keep keys unique, as a `Map` does). -/
def mapLookup {κ α : Type} [DecidableEq κ] : List (κ × α) → κ → Option α
  | [], _ => none
  | p :: m, k => if p.1 = k then some p.2 else mapLookup m k

/-- Insertion-ordered map update, as JavaScript `Map.set`: replace the value
of an existing key in place, keeping its position, or append a new key at
the end. -/
def mapSet {κ α : Type} [DecidableEq κ] : List (κ × α) → κ → α → List (κ × α)
  | [], k, v => [(k, v)]
  | p :: m, k, v => if p.1 = k then (k, v) :: m else p :: mapSet m k v

/-- JavaScript `Map.delete`: drop the entry of the given key. -/
def mapDelete {κ α : Type} [DecidableEq κ] (m : List (κ × α)) (k : κ) : List (κ × α) :=
  m.filter (fun p => decide (p.1 ≠ k))

/-! ## Capabilities (DebugSession.updateCapabilities / DebugSession.initialize) -/

/-- Capabilities record, an ordered record from field name to value (the
concrete value type is immaterial to the merge semantics; numbers are used so
the specification examples are expressible). -/
abbrev CapRecord := List (String × Nat)

/-- DebugSession.updateCapabilities: `Object.assign(this.capabilities, capabilities)`
writes every field of the update into the record, new names appended,
existing names overwritten in place; fields absent from the update are
untouched. -/
def updateCapabilities (caps update : CapRecord) : CapRecord :=
  update.foldl (fun m kv => mapSet m kv.1 kv.2) caps

/-- DebugSession starts with empty capabilities
(`capabilities: DebugProtocol.Capabilities = {}`). -/
def emptyCapabilities : CapRecord := []

/-- DebugSession stores an initialize response body wholesale:
`this.capabilities = response.body || {}` replaces the record with the body,
or with the empty record when the body is absent.  The previous record does
not contribute. -/
def initializeCapabilities (_caps : CapRecord) (body : Option CapRecord) : CapRecord :=
  body.getD []

/-! ## Thread model and the DebugSession event handlers

The thread value class lives in `model/debug-thread.ts`, which is not among
the sources; its data content is modelled from the specification.  The
handlers themselves (`clearThreads`, `clearThread`, `updateThreads`,
`updateCurrentThread`, `setCurrentThread` and the constructor listeners) are
embedded from `debug-session.ts`. -/

/-- Modelled from the spec: the value content of a DebugThread
(`model/debug-thread.ts` is missing from the sources).  A thread holds its
raw protocol descriptor and optional stop details; per specification
sections 3 and 4.2 its derived state is Stopped exactly when stop details
are present, and clearing drops the stop details. -/
structure DebugThreadData where
  raw : RawThread
  stoppedDetails : Option StoppedDetails
deriving DecidableEq, Repr

/-- Modelled from the spec: a DebugThread object — an allocation tag stands
for the object identity (listeners are attached to the object, so a
preserved tag means preserved subscriptions) and the data field for the
mutable content that `update` overwrites in place. -/
structure DebugThread where
  tag : Nat
  data : DebugThreadData
deriving DecidableEq, Repr

/-- Modelled from the spec: the derived thread state in Running/Stopped. -/
def threadState (t : DebugThread) : DebugState :=
  if t.data.stoppedDetails.isSome then DebugState.Stopped else DebugState.Running

/-- Modelled from the spec: `DebugThread.clear` drops the stop details,
mutating the object in place (same tag). -/
def clearThreadData (t : DebugThread) : DebugThread :=
  { t with data := { t.data with stoppedDetails := none } }

/-- The DebugSession state these claims touch: the id-keyed, insertion
ordered thread map (`_threads`), the current thread stored by id
(`_currentThread`; the object is the map entry of that id), and the next
allocation tag standing for the construction of new `DebugThread` objects. -/
structure SessionState where
  threads : List (Nat × DebugThread)
  current : Option Nat
  fresh : Nat
deriving DecidableEq, Repr

/-- A freshly constructed session: no threads, no current thread. -/
def initSession : SessionState :=
  { threads := [], current := none, fresh := 0 }

/-- JavaScript truthiness of the optional numeric thread id in stop details:
the source tests `!!stoppedDetails.threadId`, so both an absent id and the
id 0 are falsy. -/
def truthyId : Option Nat → Bool
  | some n => n != 0
  | none => false

/-- First half of DebugSession.updateCurrentThread: the preferred thread id —
the stop-details thread id when details are present, the focus is not to be
preserved and the id is truthy; otherwise the previous current thread id
(`currentThread && currentThread.raw.id`). -/
def preferredThreadId (prev : Option Nat) (details : Option StoppedDetails) : Option Nat :=
  match details with
  | some d => if !d.preserveFocusHint && truthyId d.threadId then d.threadId else prev
  | none => prev

/-- Second half of DebugSession.updateCurrentThread: the candidate handed to
setCurrentThread — the map entry of the preferred id when that id is a
number present in the map, otherwise the first thread of the map
(`typeof threadId === 'number' && this._threads.get(threadId) ||
this._threads.values().next().value`). -/
def candidateThread (threads : List (Nat × DebugThread)) (tid : Option Nat) :
    Option (Nat × DebugThread) :=
  match tid with
  | some id =>
    match mapLookup threads id with
    | some t => some (id, t)
    | none => threads.head?
  | none => threads.head?

/-- DebugSession.setCurrentThread: the candidate reaches doSetCurrentThread
only when its state is Stopped; otherwise the current thread becomes none. -/
def setCurrentThread (cand : Option (Nat × DebugThread)) : Option Nat :=
  match cand with
  | some (id, t) => if threadState t = DebugState.Stopped then some id else none
  | none => none

/-- DebugSession.updateCurrentThread: recompute the current thread id from
the thread map, the previous current thread id and the stop details. -/
def updateCurrentThread (threads : List (Nat × DebugThread)) (prev : Option Nat)
    (details : Option StoppedDetails) : Option Nat :=
  setCurrentThread (candidateThread threads (preferredThreadId prev details))

/-- DebugSession.clearThreads: clear the stop details of every thread (the
objects are mutated in place, so tags persist), then recompute the current
thread with no stop details. -/
def clearThreads (s : SessionState) : SessionState :=
  let ts := s.threads.map (fun p => (p.1, clearThreadData p.2))
  { s with threads := ts, current := updateCurrentThread ts s.current none }

/-- DebugSession.clearThread: clear the thread found under the given id when
one is present (an absent or unknown id clears nothing), then recompute the
current thread with no stop details. -/
def clearThread (s : SessionState) (tid : Option Nat) : SessionState :=
  let ts :=
    match tid with
    | some id =>
      match mapLookup s.threads id with
      | some _ => s.threads.map (fun p => if p.1 = id then (p.1, clearThreadData p.2) else p)
      | none => s.threads
    | none => s.threads
  { s with threads := ts, current := updateCurrentThread ts s.current none }

/-- The per-thread data DebugSession.updateThreads installs via
`thread.update`: the fresh raw descriptor, and the stop details exactly when
their thread id strictly equals this thread id. -/
def refreshedData (raw : RawThread) (details : Option StoppedDetails) : DebugThreadData :=
  { raw := raw,
    stoppedDetails :=
      match details with
      | some d => if d.threadId = some raw.id then some d else none
      | none => none }

/-- One fold step of DebugSession.updateThreads over the reported raw
threads: reuse the existing object of an already known id (same tag, data
overwritten in place), or construct a new object carrying the next
allocation tag. -/
def updateThreadsStep (existing : List (Nat × DebugThread)) (details : Option StoppedDetails)
    (acc : List (Nat × DebugThread) × Nat) (raw : RawThread) :
    List (Nat × DebugThread) × Nat :=
  match mapLookup existing raw.id with
  | some t => (mapSet acc.1 raw.id { t with data := refreshedData raw details }, acc.2)
  | none => (mapSet acc.1 raw.id { tag := acc.2, data := refreshedData raw details }, acc.2 + 1)

/-- DebugSession.updateThreads: replace the thread map wholesale from the
threads response, reusing existing objects by id and constructing new ones
for unknown ids; ids absent from the response are dropped.  Afterwards
recompute the current thread with the stop details in force. -/
def updateThreads (s : SessionState) (raws : List RawThread)
    (details : Option StoppedDetails) : SessionState :=
  let res := raws.foldl (updateThreadsStep s.threads details) ([], s.fresh)
  { threads := res.1, current := updateCurrentThread res.1 s.current details,
    fresh := res.2 }

/-- The protocol events that drive the thread model, at the granularity at
which the DebugSession constructor listeners change state: a continued
event; a thread event with reason exited; and the completion of the
debounced threads refresh — scheduled by stopped events, thread events with
reason started, and configurationDone — carrying the threads response and
the stop-details argument in force at fire time. -/
inductive SessionEvent where
  | continuedEv (allThreadsContinued : Option Bool) (threadId : Option Nat)
  | threadExited (threadId : Nat)
  | refreshDone (raws : List RawThread) (details : Option StoppedDetails)

/-- One DebugSession listener step: the continued listener clears all
threads unless allThreadsContinued is exactly false and else only the named
one; a thread-exited event clears the named thread; a finished threads
refresh replaces the thread map. -/
def stepSession (s : SessionState) (e : SessionEvent) : SessionState :=
  match e with
  | SessionEvent.continuedEv atc tid =>
    if atc ≠ some false then clearThreads s else clearThread s tid
  | SessionEvent.threadExited tid => clearThread s (some tid)
  | SessionEvent.refreshDone raws details => updateThreads s raws details

/-- The C1 invariant, decidably: the current thread is absent, or it is an
entry of the thread map whose state is Stopped. -/
def currentOkAt (threads : List (Nat × DebugThread)) (cur : Option Nat) : Bool :=
  match cur with
  | none => true
  | some id =>
    match mapLookup threads id with
    | some t => threadState t == DebugState.Stopped
    | none => false

/-- The C1 invariant of a session state. -/
def currentOk (s : SessionState) : Bool :=
  currentOkAt s.threads s.current

/-! ## The debounced threads refresh (DebugSession.resolveThreads) -/

/-- Modelled from the spec: the state of the debounce wrapper around
resolveThreads (the `p-debounce` library is not among the sources;
specification section 9 describes it as a pending flag plus a
latest-pending-argument slot, fired by a single-shot timer with the latest
argument). -/
structure DebounceState where
  pending : Bool
  latest : Option (Option StoppedDetails)
deriving DecidableEq, Repr

/-- An idle debouncer. -/
def debounceInit : DebounceState :=
  { pending := false, latest := none }

/-- Modelled from the spec: a threads-refresh trigger (a stopped event, a
thread-started event or configurationDone) records its stop-details
argument as the latest one and marks the refresh pending. -/
def debounceTrigger (_d : DebounceState) (arg : Option StoppedDetails) : DebounceState :=
  { pending := true, latest := some arg }

/-- Modelled from the spec: when the timer fires, the resolveThreads body
runs once with the latest recorded argument — issuing exactly one threads
request — and the pending state clears; an idle fire does nothing.  The
first component lists the threads requests issued by the fire, each element
being the stop-details argument of one executed request. -/
def debounceFire (d : DebounceState) : List (Option StoppedDetails) × DebounceState :=
  if d.pending then (d.latest.toList, debounceInit) else ([], d)

/-- The threads requests issued when a burst of triggers lands within one
debounce window and the timer then fires: fold the triggers into the
debouncer, then fire. -/
def threadsRequestsInWindow (triggers : List (Option StoppedDetails)) :
    List (Option StoppedDetails) :=
  (debounceFire (triggers.foldl debounceTrigger debounceInit)).1

/-! ## pauseAll / continueAll (DebugSession) -/

/-- The try/catch wrapped around one thread's pause or continue request in
DebugSession.pauseAll and DebugSession.continueAll: a failure is logged and
swallowed, so the joined promise always succeeds. -/
def swallowError (r : Except String Unit) : Except String Unit :=
  match r with
  | Except.ok _ => Except.ok ()
  | Except.error _ => Except.ok ()

/-- DebugSession.pauseAll: one pause request per thread currently Running
(in map order, `getThreadsForState(DebugState.Running)`), each wrapped in
the swallowing try/catch, all awaited together.  The outcome function gives
each per-thread request result; the returned pair is the list of requested
thread ids and the overall result. -/
def pauseAll (s : SessionState) (outcome : Nat → Except String Unit) :
    List Nat × Except String Unit :=
  let reqs := ((s.threads.map Prod.snd).filter
    (fun t => threadState t == DebugState.Running)).map (fun t => t.data.raw.id)
  (reqs, reqs.foldl (fun acc id => acc.bind (fun _ => swallowError (outcome id)))
    (Except.ok ()))

/-- DebugSession.continueAll: the mirror image of pauseAll over the threads
currently Stopped. -/
def continueAll (s : SessionState) (outcome : Nat → Except String Unit) :
    List Nat × Except String Unit :=
  let reqs := ((s.threads.map Prod.snd).filter
    (fun t => threadState t == DebugState.Stopped)).map (fun t => t.data.raw.id)
  (reqs, reqs.foldl (fun acc id => acc.bind (fun _ => swallowError (outcome id)))
    (Except.ok ()))

/-! ## The session manager (debug-session-manager.ts) -/

/-- A configuration field value: string, boolean or number. -/
inductive CVal where
  | str (s : String)
  | bool (b : Bool)
  | num (n : Nat)
deriving DecidableEq, Repr

/-- DebugConfiguration: adapter type, request kind, and the arbitrary
adapter-specific fields as an ordered record (the record the manager mutates
by `Object.assign`). -/
structure DebugConfiguration where
  type : String
  request : String
  fields : List (String × CVal)
deriving DecidableEq, Repr

/-- The session as the manager sees it: the caller-supplied session id and
the configuration record the session owns. -/
structure DebugSession where
  sessionId : String
  configuration : DebugConfiguration
deriving DecidableEq, Repr

/-- DebugSessionManager.launchOrAttach: dispatch on the configuration's
request kind.  attach sends initialize then attach, after merging the
marker `__restart: false` into the configuration record; launch sends
initialize then launch, after merging `__restart: false` and
`noDebug: false`; any other request kind throws the unsupported-request
error before any request is sent.  (The thrown message in the source also
quotes the request name; the quotes are omitted here.)  The ok value is the
list of requests sent, in order, and the mutated configuration.
attachedConfig is the configuration after the attach path merged its marker
(`Object.assign(session.configuration, { __restart: false })`), and
launchedConfig the one after the launch path merged its markers
(`Object.assign(session.configuration, { __restart: false, noDebug: false })`). -/
def attachedConfig (cfg : DebugConfiguration) : DebugConfiguration :=
  { cfg with fields := mapSet cfg.fields "__restart" (CVal.bool false) }

/-- See attachedConfig: the launch-path configuration mutation. -/
def launchedConfig (cfg : DebugConfiguration) : DebugConfiguration :=
  { cfg with fields := mapSet (mapSet cfg.fields "__restart" (CVal.bool false)) "noDebug" (CVal.bool false) }

/-- DebugSessionManager.launchOrAttach proper: the request dispatch. -/
def launchOrAttach (cfg : DebugConfiguration) :
    Except String (List String × DebugConfiguration) :=
  if cfg.request = "attach" then
    Except.ok (["initialize", "attach"], attachedConfig cfg)
  else if cfg.request = "launch" then
    Except.ok (["initialize", "launch"], launchedConfig cfg)
  else
    Except.error ("Unsupported request " ++ cfg.request ++ " type.")

/-- The manager state the claims touch: the registered sessions
(insertion-ordered, keyed by session id) and the active session id. -/
structure ManagerState where
  sessions : List (String × DebugSession)
  active : Option String
deriving DecidableEq, Repr

/-- A manager with no sessions. -/
def initManager : ManagerState :=
  { sessions := [], active := none }

/-- DebugSessionManager.create: fires pre-create, constructs the session,
registers it in the session map, fires create, wires the listeners, then
starts launchOrAttach WITHOUT awaiting it and returns the session.  The
returned triple is the manager state once the floating launchOrAttach
promise has settled, the result create itself resolves with — always the
session, because a launchOrAttach rejection is unobserved by create's caller
— and the adapter requests sent.  create never touches the active id. -/
def create (st : ManagerState) (sid : String) (cfg : DebugConfiguration) :
    ManagerState × Except String String × List String :=
  let sess : DebugSession := { sessionId := sid, configuration := cfg }
  let st1 : ManagerState := { st with sessions := mapSet st.sessions sid sess }
  match launchOrAttach cfg with
  | Except.ok (reqs, cfg2) =>
    ({ st1 with sessions := mapSet st1.sessions sid { sess with configuration := cfg2 } },
      Except.ok sid, reqs)
  | Except.error _ => (st1, Except.ok sid, [])

/-- The arguments DebugSessionManager.restart passes to disconnect:
`{ restart: true }`. -/
def restartDisconnectArgs : List (String × CVal) := [("restart", CVal.bool true)]

/-- DebugSessionManager.restart: await disconnect with the restart flag,
then re-run launchOrAttach on the same session object.  Returns the request
log (disconnect first) and the session afterwards; when launchOrAttach
throws, the configuration is untouched. -/
def restart (s : DebugSession) : List String × DebugSession :=
  match launchOrAttach s.configuration with
  | Except.ok (reqs, cfg2) => ("disconnect" :: reqs, { s with configuration := cfg2 })
  | Except.error _ => (["disconnect"], s)

/-- JavaScript truthiness of the nullable active session id: both undefined
and the empty string are falsy. -/
def truthyStr : Option String → Bool
  | some s => s != ""
  | none => false

/-- DebugSessionManager.setActiveDebugSession: a truthy id that is not in
the session map is ignored; otherwise the active id is replaced when it
differs (the change notification carries no state and is out of scope). -/
def setActiveDebugSession (st : ManagerState) (sid : Option String) : ManagerState :=
  match sid with
  | some s =>
    if s ≠ "" ∧ (mapLookup st.sessions s).isNone then st
    else if st.active = some s then st else { st with active := some s }
  | none => if st.active = none then st else { st with active := none }

/-- DebugSessionManager.remove: delete the session from the map; when the
active id is truthy and names the removed session, promote the first
remaining session, or clear the active id when no session remains. -/
def remove (st : ManagerState) (sid : String) : ManagerState :=
  let st1 : ManagerState := { st with sessions := mapDelete st.sessions sid }
  if truthyStr st1.active then
    if st1.active = some sid then
      if st1.sessions ≠ [] then
        setActiveDebugSession st1 (st1.sessions.head?.map (fun p => p.1))
      else
        setActiveDebugSession st1 none
    else st1
  else st1

/-- A concrete session whose launch configuration already carries the merged
markers, as any session that completed launchOrAttach does; used to
instantiate theorems. -/
def sampleLaunchedSession : DebugSession :=
  { sessionId := "s7",
    configuration :=
      { type := "node", request := "launch",
        fields := [("program", CVal.str "app.js"), ("__restart", CVal.bool false),
          ("noDebug", CVal.bool false)] } }

/-! ## Library lemmas about the map embedding -/

theorem mapSet_lookup_self {κ α : Type} [DecidableEq κ] (m : List (κ × α)) (k : κ) (v : α) :
    mapLookup (mapSet m k v) k = some v := by
  induction m with
  | nil => simp [mapSet, mapLookup]
  | cons p m ih =>
    by_cases h : p.1 = k
    · simp [mapSet, h, mapLookup]
    · simp [mapSet, h, mapLookup, ih]

theorem mapSet_lookup_ne {κ α : Type} [DecidableEq κ] (m : List (κ × α)) (k k' : κ) (v : α)
    (h : k' ≠ k) : mapLookup (mapSet m k v) k' = mapLookup m k' := by
  induction m with
  | nil => simp [mapSet, mapLookup, Ne.symm h]
  | cons p m ih =>
    by_cases hp : p.1 = k
    · subst hp
      simp [mapSet, mapLookup, Ne.symm h, h]
    · have hs : mapSet (p :: m) k v = p :: mapSet m k v := by
        simp [mapSet, hp]
      rw [hs]
      by_cases hk' : p.1 = k'
      · simp [mapLookup, hk']
      · simp [mapLookup, hk', ih]

theorem mapSet_eq_self {κ α : Type} [DecidableEq κ] (m : List (κ × α)) (k : κ) (v : α)
    (h : mapLookup m k = some v) : mapSet m k v = m := by
  induction m with
  | nil => simp [mapLookup] at h
  | cons p m ih =>
    by_cases hp : p.1 = k
    · obtain ⟨k₁, v₁⟩ := p
      simp only at hp
      subst hp
      simp [mapLookup] at h
      simp [mapSet, h]
    · have h' : mapLookup m k = some v := by
        simpa [mapLookup, hp] using h
      simp [mapSet, hp, ih h']

theorem head?_mapLookup {κ α : Type} [DecidableEq κ] (m : List (κ × α)) (p : κ × α)
    (h : m.head? = some p) : mapLookup m p.1 = some p.2 := by
  cases m with
  | nil => simp at h
  | cons q m =>
    simp at h
    subst h
    simp [mapLookup]

theorem mapDelete_lookup_self {κ α : Type} [DecidableEq κ] (m : List (κ × α)) (k : κ) :
    mapLookup (mapDelete m k) k = none := by
  induction m with
  | nil => simp [mapDelete, mapLookup]
  | cons p m ih =>
    by_cases h : p.1 = k
    · simpa [mapDelete, h] using ih
    · simpa [mapDelete, mapLookup, h] using ih

theorem mapDelete_lookup_ne {κ α : Type} [DecidableEq κ] (m : List (κ × α)) (k k' : κ)
    (h : k' ≠ k) : mapLookup (mapDelete m k) k' = mapLookup m k' := by
  induction m with
  | nil => simp [mapDelete]
  | cons p m ih =>
    by_cases hp : p.1 = k
    · subst hp
      simpa [mapDelete, mapLookup, Ne.symm h] using ih
    · have hf : mapDelete (p :: m) k = p :: mapDelete m k := by
        simp [mapDelete, hp]
      rw [hf]
      by_cases hk' : p.1 = k'
      · simp [mapLookup, hk']
      · simp [mapLookup, hk', ih]

theorem mem_mapDelete_key_ne {κ α : Type} [DecidableEq κ] (m : List (κ × α)) (k : κ)
    (p : κ × α) (h : p ∈ mapDelete m k) : p.1 ≠ k := by
  have := List.of_mem_filter h
  simpa using this

/-! ## C2: capabilities merge -/

theorem updateCapabilities_lookup_absent (caps : CapRecord) (upd : CapRecord) (k : String)
    (h : mapLookup upd k = none) :
    mapLookup (updateCapabilities caps upd) k = mapLookup caps k := by
  induction upd generalizing caps with
  | nil => rfl
  | cons kv upd ih =>
    have hk : kv.1 ≠ k := by
      intro he
      simp [mapLookup, he] at h
    have h' : mapLookup upd k = none := by
      simpa [mapLookup, hk] using h
    calc mapLookup (updateCapabilities (mapSet caps kv.1 kv.2) upd) k
        = mapLookup (mapSet caps kv.1 kv.2) k := ih _ h'
      _ = mapLookup caps k := mapSet_lookup_ne caps kv.1 k kv.2 (Ne.symm hk)

/-- C2 counterexample: the claim says both update paths merge additively and
the record is never replaced; but merging the field a via a capabilities
event and then receiving an initialize response carrying only the field b
leaves a record in which a is gone — the initialize path replaced the record
with the response body instead of merging into it. -/
theorem c2_initialize_replaces_counterexample :
    mapLookup (updateCapabilities emptyCapabilities [("a", 1)]) "a" = some 1 ∧
    mapLookup (initializeCapabilities (updateCapabilities emptyCapabilities [("a", 1)])
      (some [("b", 2)])) "a" = none ∧
    initializeCapabilities (updateCapabilities emptyCapabilities [("a", 1)])
      (some [("b", 2)]) ≠ [("a", 1), ("b", 2)] := by
  decide

/-- C2 amended: the capabilities-event path merges additively — the specified
chain of merges of a:1, b:2, a:3 yields exactly a:3, b:2; a field set by an
update overrides a prior field of the same name, and a field absent from an
update is preserved.  The initialize path, by contrast, replaces the whole
record with the response body (the empty record when the body is absent). -/
theorem c2_capabilities_merge :
    updateCapabilities (updateCapabilities (updateCapabilities emptyCapabilities
      [("a", 1)]) [("b", 2)]) [("a", 3)] = [("a", 3), ("b", 2)] ∧
    (∀ caps : CapRecord, ∀ k : String, ∀ v : Nat,
      mapLookup (updateCapabilities caps [(k, v)]) k = some v) ∧
    (∀ caps upd : CapRecord, ∀ k : String, mapLookup upd k = none →
      mapLookup (updateCapabilities caps upd) k = mapLookup caps k) ∧
    (∀ caps body : CapRecord, initializeCapabilities caps (some body) = body) ∧
    (∀ caps : CapRecord, initializeCapabilities caps none = []) := by
  refine ⟨by decide, ?_, ?_, ?_, ?_⟩
  · intro caps k v
    exact mapSet_lookup_self caps k v
  · intro caps upd k h
    exact updateCapabilities_lookup_absent caps upd k h
  · intro caps body
    rfl
  · intro caps
    rfl

/-- Witness for the amended C2 theorem at concrete inputs. -/
theorem c2_capabilities_merge_witness :
    mapLookup ([("a", 7)] : CapRecord) "x" = none ∧
    mapLookup (updateCapabilities [("x", 5)] [("a", 7)]) "x" = some 5 ∧
    mapLookup (updateCapabilities [("x", 5)] [("x", 9)]) "x" = some 9 ∧
    initializeCapabilities [("x", 5)] (some [("y", 1)]) = [("y", 1)] :=
  ⟨by decide,
   c2_capabilities_merge.2.2.1 [("x", 5)] [("a", 7)] "x" (by decide),
   c2_capabilities_merge.2.1 [("x", 5)] "x" 9,
   c2_capabilities_merge.2.2.2.1 [("x", 5)] [("y", 1)]⟩

/-! ## C1: current thread is absent or Stopped -/

theorem candidateThread_lookup (ts : List (Nat × DebugThread)) (tid : Option Nat)
    (id : Nat) (t : DebugThread) (hc : candidateThread ts tid = some (id, t)) :
    mapLookup ts id = some t := by
  cases tid with
  | none =>
    have hc' : ts.head? = some (id, t) := hc
    exact head?_mapLookup ts (id, t) hc'
  | some i =>
    have hc' : (match mapLookup ts i with
      | some t => some (i, t)
      | none => ts.head?) = some (id, t) := hc
    cases hli : mapLookup ts i with
    | none =>
      rw [hli] at hc'
      exact head?_mapLookup ts (id, t) hc'
    | some t' =>
      rw [hli] at hc'
      simp at hc'
      obtain ⟨h1, h2⟩ := hc'
      subst h1
      subst h2
      exact hli

theorem updateCurrentThread_ok (ts : List (Nat × DebugThread)) (prev : Option Nat)
    (details : Option StoppedDetails) :
    currentOkAt ts (updateCurrentThread ts prev details) = true := by
  unfold updateCurrentThread
  cases hc : candidateThread ts (preferredThreadId prev details) with
  | none => simp [setCurrentThread, currentOkAt]
  | some p =>
    obtain ⟨id, t⟩ := p
    have hl : mapLookup ts id = some t := candidateThread_lookup ts _ id t hc
    by_cases hs : threadState t = DebugState.Stopped
    · simp [setCurrentThread, hs, currentOkAt, hl]
    · simp [setCurrentThread, hs, currentOkAt]

theorem stepSession_ok (s : SessionState) (e : SessionEvent) :
    currentOk (stepSession s e) = true := by
  cases e with
  | continuedEv atc tid =>
    by_cases h : atc ≠ some false
    · simp only [stepSession, if_pos h]
      exact updateCurrentThread_ok _ _ _
    · simp only [stepSession, if_neg h]
      exact updateCurrentThread_ok _ _ _
  | threadExited tid =>
    exact updateCurrentThread_ok _ _ _
  | refreshDone raws details =>
    exact updateCurrentThread_ok _ _ _

/-- C1: after every sequence of continued, thread-exited and (debounced)
threads-refresh events handled by a session, the current thread is either
absent or an entry of the thread map whose state is exactly Stopped; and
setCurrentThread never installs a candidate whose state is not Stopped. -/
theorem c1_current_thread_absent_or_stopped :
    (∀ events : List SessionEvent,
      currentOk (events.foldl stepSession initSession) = true) ∧
    (∀ id : Nat, ∀ t : DebugThread, threadState t ≠ DebugState.Stopped →
      setCurrentThread (some (id, t)) = none) := by
  constructor
  · intro events
    induction events using List.reverseRecOn with
    | nil => decide
    | append_singleton es e _ =>
      rw [List.foldl_append]
      exact stepSession_ok _ e
  · intro id t ht
    simp [setCurrentThread, ht]

/-- Witness for C1: a concrete refresh installing the stopped thread keeps
the invariant, and a concrete running thread is rejected by
setCurrentThread. -/
theorem c1_current_thread_absent_or_stopped_witness :
    currentOk (List.foldl stepSession initSession
      [SessionEvent.refreshDone [⟨1, "main"⟩]
        (some ⟨"breakpoint", some 1, false, true⟩),
       SessionEvent.continuedEv none none]) = true ∧
    threadState ⟨7, ⟨⟨2, "worker"⟩, none⟩⟩ ≠ DebugState.Stopped ∧
    setCurrentThread (some (2, ⟨7, ⟨⟨2, "worker"⟩, none⟩⟩)) = none :=
  ⟨c1_current_thread_absent_or_stopped.1 _, by decide,
   c1_current_thread_absent_or_stopped.2 2 ⟨7, ⟨⟨2, "worker"⟩, none⟩⟩ (by decide)⟩

/-! ## C5: the continued event -/

theorem mapLookup_map_clearAll (m : List (Nat × DebugThread)) (k : Nat) :
    mapLookup (m.map (fun p => (p.1, clearThreadData p.2))) k =
      (mapLookup m k).map clearThreadData := by
  induction m with
  | nil => rfl
  | cons p m ih =>
    by_cases h : p.1 = k
    · simp [mapLookup, h]
    · simp [mapLookup, h, ih]

theorem mapLookup_map_clearOne (m : List (Nat × DebugThread)) (i k : Nat) :
    mapLookup (m.map (fun p => if p.1 = i then (p.1, clearThreadData p.2) else p)) k =
      if i = k then (mapLookup m k).map clearThreadData else mapLookup m k := by
  induction m with
  | nil => simp [mapLookup]
  | cons p m ih =>
    by_cases hpi : p.1 = i
    · by_cases hpk : p.1 = k
      · have hik : i = k := hpi.symm.trans hpk
        simp [mapLookup, hpi, hpk, hik]
      · have hik : ¬ i = k := fun he => hpk (hpi.trans he)
        simp [mapLookup, hpi, hpk, hik, ih]
    · by_cases hpk : p.1 = k
      · have hik : ¬ i = k := fun he => hpi (hpk.trans he.symm)
        have hki : ¬ k = i := fun he => hik he.symm
        simp [mapLookup, hpi, hpk, hik, hki]
      · simp [mapLookup, hpi, hpk, ih]

/-- C5: on a continued event with allThreadsContinued anything other than
exactly false (including absent) every thread loses its stop details; with
allThreadsContinued exactly false only the thread named by threadId is
cleared and every other thread keeps its prior stop details; in both cases
the current thread is recomputed from the resulting map (with no stop
details) by the setCurrentThread discipline. -/
theorem c5_continued_event :
    ∀ (s : SessionState) (atc : Option Bool) (tid : Option Nat),
      (atc ≠ some false →
        (∀ k : Nat,
          mapLookup (stepSession s (SessionEvent.continuedEv atc tid)).threads k =
            (mapLookup s.threads k).map clearThreadData) ∧
        (stepSession s (SessionEvent.continuedEv atc tid)).current =
          updateCurrentThread (stepSession s (SessionEvent.continuedEv atc tid)).threads
            s.current none) ∧
      (atc = some false →
        (∀ k : Nat,
          mapLookup (stepSession s (SessionEvent.continuedEv atc tid)).threads k =
            if tid = some k then (mapLookup s.threads k).map clearThreadData
            else mapLookup s.threads k) ∧
        (stepSession s (SessionEvent.continuedEv atc tid)).current =
          updateCurrentThread (stepSession s (SessionEvent.continuedEv atc tid)).threads
            s.current none) := by
  intro s atc tid
  constructor
  · intro h
    simp only [stepSession, if_pos h]
    exact ⟨fun k => mapLookup_map_clearAll s.threads k, rfl⟩
  · intro h
    subst h
    have hne : ¬ ((some false : Option Bool) ≠ some false) := by simp
    simp only [stepSession, if_neg hne]
    constructor
    · intro k
      cases tid with
      | none => simp [clearThread]
      | some i =>
        cases hli : mapLookup s.threads i with
        | none =>
          simp only [clearThread, hli]
          by_cases hik : i = k
          · subst hik
            simp [hli]
          · simp [Option.some.injEq, hik]
        | some t =>
          simp only [clearThread, hli]
          rw [mapLookup_map_clearOne]
          by_cases hik : i = k
          · subst hik
            simp
          · simp [Option.some.injEq, hik]
    · cases tid with
      | none => rfl
      | some i =>
        cases hli : mapLookup s.threads i with
        | none => simp [clearThread, hli]
        | some t => simp [clearThread, hli]

/-- Witness for C5 at a concrete session: thread 1 is the named thread of a
continued event carrying allThreadsContinued false and loses its details,
while thread 2 keeps its prior stop details. -/
theorem c5_continued_event_witness :
    ((some false : Option Bool) = some false) ∧
    mapLookup (stepSession
        { threads := [(1, ⟨0, ⟨⟨1, "a"⟩, some ⟨"step", some 1, false, false⟩⟩⟩),
                      (2, ⟨1, ⟨⟨2, "b"⟩, some ⟨"pause", some 2, false, false⟩⟩⟩)],
          current := some 2, fresh := 2 }
        (SessionEvent.continuedEv (some false) (some 1))).threads 1 =
      some (clearThreadData ⟨0, ⟨⟨1, "a"⟩, some ⟨"step", some 1, false, false⟩⟩⟩) ∧
    mapLookup (stepSession
        { threads := [(1, ⟨0, ⟨⟨1, "a"⟩, some ⟨"step", some 1, false, false⟩⟩⟩),
                      (2, ⟨1, ⟨⟨2, "b"⟩, some ⟨"pause", some 2, false, false⟩⟩⟩)],
          current := some 2, fresh := 2 }
        (SessionEvent.continuedEv (some false) (some 1))).threads 2 =
      some ⟨1, ⟨⟨2, "b"⟩, some ⟨"pause", some 2, false, false⟩⟩⟩ := by
  refine ⟨rfl, ?_, ?_⟩
  · have h := ((c5_continued_event
      { threads := [(1, ⟨0, ⟨⟨1, "a"⟩, some ⟨"step", some 1, false, false⟩⟩⟩),
                    (2, ⟨1, ⟨⟨2, "b"⟩, some ⟨"pause", some 2, false, false⟩⟩⟩)],
        current := some 2, fresh := 2 } (some false) (some 1)).2 rfl).1 1
    simp only [h]
    decide
  · have h := ((c5_continued_event
      { threads := [(1, ⟨0, ⟨⟨1, "a"⟩, some ⟨"step", some 1, false, false⟩⟩⟩),
                    (2, ⟨1, ⟨⟨2, "b"⟩, some ⟨"pause", some 2, false, false⟩⟩⟩)],
        current := some 2, fresh := 2 } (some false) (some 1)).2 rfl).1 2
    simp only [h]
    decide

/-! ## C10: falsy stop thread ids never take focus -/

/-- C10: stop details whose thread id is absent or 0 are ignored by the
current-thread recomputation regardless of the preserve-focus hint: the
selection is exactly the one made with no stop details, which prefers the
previous current thread id and falls back to the first remaining thread. -/
theorem c10_falsy_stop_thread_id_ignored :
    ∀ (ts : List (Nat × DebugThread)) (prev : Option Nat) (d : StoppedDetails),
      d.threadId = none ∨ d.threadId = some 0 →
      updateCurrentThread ts prev (some d) = updateCurrentThread ts prev none := by
  intro ts prev d hd
  have ht : truthyId d.threadId = false := by
    rcases hd with h | h <;> simp [truthyId, h]
  have hpref : preferredThreadId prev (some d) = prev := by
    simp [preferredThreadId, ht]
  unfold updateCurrentThread
  rw [hpref]
  rfl

/-- Witness for C10: a stopped event naming thread 0 with focus not
preserved does not move the focus; the previous current thread 1 stays
selected. -/
theorem c10_falsy_stop_thread_id_ignored_witness :
    ((some 0 : Option Nat) = none ∨ (some 0 : Option Nat) = some 0) ∧
    updateCurrentThread
      [(0, ⟨0, ⟨⟨0, "z"⟩, some ⟨"pause", some 0, false, false⟩⟩⟩),
       (1, ⟨1, ⟨⟨1, "a"⟩, some ⟨"step", some 1, false, false⟩⟩⟩)]
      (some 1) (some ⟨"pause", some 0, false, false⟩) =
      updateCurrentThread
        [(0, ⟨0, ⟨⟨0, "z"⟩, some ⟨"pause", some 0, false, false⟩⟩⟩),
         (1, ⟨1, ⟨⟨1, "a"⟩, some ⟨"step", some 1, false, false⟩⟩⟩)]
        (some 1) none ∧
    updateCurrentThread
      [(0, ⟨0, ⟨⟨0, "z"⟩, some ⟨"pause", some 0, false, false⟩⟩⟩),
       (1, ⟨1, ⟨⟨1, "a"⟩, some ⟨"step", some 1, false, false⟩⟩⟩)]
      (some 1) (some ⟨"pause", some 0, false, false⟩) = some 1 :=
  ⟨Or.inr rfl,
   c10_falsy_stop_thread_id_ignored _ (some 1) ⟨"pause", some 0, false, false⟩ (Or.inr rfl),
   by decide⟩

/-! ## C4: the debounced threads refresh coalesces -/

theorem foldl_debounceTrigger_cons (a : Option StoppedDetails)
    (ts : List (Option StoppedDetails)) (d : DebounceState) :
    (a :: ts).foldl debounceTrigger d =
      { pending := true, latest := (a :: ts).getLast? } := by
  induction ts generalizing a d with
  | nil => simp [debounceTrigger]
  | cons b ts ih =>
    have h1 : (a :: b :: ts).foldl debounceTrigger d =
        (b :: ts).foldl debounceTrigger (debounceTrigger d a) := rfl
    rw [h1, ih b (debounceTrigger d a)]
    simp [List.getLast?]

theorem getLast?_cons_exists {α : Type} (a : α) (ts : List α) :
    ∃ x, (a :: ts).getLast? = some x := by
  induction ts generalizing a with
  | nil => exact ⟨a, rfl⟩
  | cons b ts ih =>
    obtain ⟨x, hx⟩ := ih b
    exact ⟨x, by rw [List.getLast?_cons_cons]; exact hx⟩

/-- C4: any burst of one or more threads-refresh triggers inside one
debounce window produces, when the timer fires, exactly one threads request,
and the stop-details argument that request carries is the one of the most
recent trigger (the request list is exactly the last trigger argument as a
singleton; an empty burst produces no request). -/
theorem c4_debounce_single_request :
    ∀ triggers : List (Option StoppedDetails),
      threadsRequestsInWindow triggers = triggers.getLast?.toList ∧
      (triggers ≠ [] → (threadsRequestsInWindow triggers).length = 1 ∧
        (threadsRequestsInWindow triggers).head? = triggers.getLast?) := by
  intro triggers
  cases triggers with
  | nil => exact ⟨rfl, fun h => absurd rfl h⟩
  | cons a ts =>
    have hfold := foldl_debounceTrigger_cons a ts debounceInit
    obtain ⟨x, hx⟩ := getLast?_cons_exists a ts
    constructor
    · unfold threadsRequestsInWindow
      rw [hfold]
      simp [debounceFire, hx]
    · intro _
      unfold threadsRequestsInWindow
      rw [hfold]
      simp [debounceFire, hx]

/-- Witness for C4: three triggers inside one window, the last one carrying
stop details for thread 9, produce exactly one threads request carrying
those details. -/
theorem c4_debounce_single_request_witness :
    ([none, some ⟨"step", some 3, false, false⟩,
      some ⟨"breakpoint", some 9, false, true⟩] :
        List (Option StoppedDetails)) ≠ [] ∧
    threadsRequestsInWindow
      [none, some ⟨"step", some 3, false, false⟩,
       some ⟨"breakpoint", some 9, false, true⟩] =
      [some ⟨"breakpoint", some 9, false, true⟩] ∧
    (threadsRequestsInWindow
      [none, some ⟨"step", some 3, false, false⟩,
       some ⟨"breakpoint", some 9, false, true⟩]).length = 1 :=
  ⟨by decide,
   (c4_debounce_single_request _).1,
   ((c4_debounce_single_request _).2 (by decide)).1⟩

/-! ## C6: pauseAll and continueAll -/

theorem swallowError_ok (r : Except String Unit) : swallowError r = Except.ok () := by
  cases r <;> rfl

theorem foldl_swallow_ok (outcome : Nat → Except String Unit) (l : List Nat) :
    l.foldl (fun acc id => acc.bind (fun _ => swallowError (outcome id)))
      (Except.ok ()) = Except.ok () := by
  induction l with
  | nil => rfl
  | cons a l ih =>
    have h1 : ((Except.ok () : Except String Unit).bind
        (fun _ => swallowError (outcome a))) = swallowError (outcome a) := rfl
    have h2 : (a :: l).foldl (fun acc id => acc.bind (fun _ => swallowError (outcome id)))
        (Except.ok ()) =
        l.foldl (fun acc id => acc.bind (fun _ => swallowError (outcome id)))
          ((Except.ok () : Except String Unit).bind (fun _ => swallowError (outcome a))) := rfl
    rw [h2, h1, swallowError_ok]
    exact ih

/-- C6: pauseAll issues exactly one pause request per thread currently
Running, continueAll exactly one continue request per thread currently
Stopped (in thread-map order), and both resolve successfully whatever the
individual per-thread outcomes are — a per-thread failure is swallowed and
never rejects the joined operation.  Every requested id belongs to a thread
of the session in the required state. -/
theorem c6_pause_continue_all :
    ∀ (s : SessionState) (outcome : Nat → Except String Unit),
      (pauseAll s outcome).2 = Except.ok () ∧
      (continueAll s outcome).2 = Except.ok () ∧
      (pauseAll s outcome).1 = ((s.threads.map Prod.snd).filter
        (fun t => threadState t == DebugState.Running)).map (fun t => t.data.raw.id) ∧
      (continueAll s outcome).1 = ((s.threads.map Prod.snd).filter
        (fun t => threadState t == DebugState.Stopped)).map (fun t => t.data.raw.id) ∧
      (∀ id, id ∈ (pauseAll s outcome).1 →
        ∃ t : DebugThread, t ∈ s.threads.map Prod.snd ∧
          threadState t = DebugState.Running ∧ t.data.raw.id = id) ∧
      (∀ id, id ∈ (continueAll s outcome).1 →
        ∃ t : DebugThread, t ∈ s.threads.map Prod.snd ∧
          threadState t = DebugState.Stopped ∧ t.data.raw.id = id) := by
  intro s outcome
  refine ⟨foldl_swallow_ok outcome _, foldl_swallow_ok outcome _, rfl, rfl, ?_, ?_⟩
  · intro id hid
    obtain ⟨t, ht, hid'⟩ := List.mem_map.1 hid
    obtain ⟨htm, hts⟩ := List.mem_filter.1 ht
    exact ⟨t, htm, by simpa using hts, hid'⟩
  · intro id hid
    obtain ⟨t, ht, hid'⟩ := List.mem_map.1 hid
    obtain ⟨htm, hts⟩ := List.mem_filter.1 ht
    exact ⟨t, htm, by simpa using hts, hid'⟩

/-- Witness for C6 over the specified threads A:Running, B:Stopped,
C:Running (ids 1, 2, 3): pauseAll issues exactly the two requests for A and
C, and still resolves although the request for A fails. -/
theorem c6_pause_continue_all_witness :
    (pauseAll
      { threads := [(1, ⟨0, ⟨⟨1, "A"⟩, none⟩⟩),
                    (2, ⟨1, ⟨⟨2, "B"⟩, some ⟨"pause", some 2, false, false⟩⟩⟩),
                    (3, ⟨2, ⟨⟨3, "C"⟩, none⟩⟩)],
        current := some 2, fresh := 3 }
      (fun id => if id = 1 then Except.error "stuck" else Except.ok ())).1 = [1, 3] ∧
    (pauseAll
      { threads := [(1, ⟨0, ⟨⟨1, "A"⟩, none⟩⟩),
                    (2, ⟨1, ⟨⟨2, "B"⟩, some ⟨"pause", some 2, false, false⟩⟩⟩),
                    (3, ⟨2, ⟨⟨3, "C"⟩, none⟩⟩)],
        current := some 2, fresh := 3 }
      (fun id => if id = 1 then Except.error "stuck" else Except.ok ())).2 =
      Except.ok () ∧
    (continueAll
      { threads := [(1, ⟨0, ⟨⟨1, "A"⟩, none⟩⟩),
                    (2, ⟨1, ⟨⟨2, "B"⟩, some ⟨"pause", some 2, false, false⟩⟩⟩),
                    (3, ⟨2, ⟨⟨3, "C"⟩, none⟩⟩)],
        current := some 2, fresh := 3 }
      (fun id => if id = 1 then Except.error "stuck" else Except.ok ())).1 = [2] :=
  ⟨rfl,
   (c6_pause_continue_all
     { threads := [(1, ⟨0, ⟨⟨1, "A"⟩, none⟩⟩),
                   (2, ⟨1, ⟨⟨2, "B"⟩, some ⟨"pause", some 2, false, false⟩⟩⟩),
                   (3, ⟨2, ⟨⟨3, "C"⟩, none⟩⟩)],
       current := some 2, fresh := 3 }
     (fun id => if id = 1 then Except.error "stuck" else Except.ok ())).1,
   rfl⟩

/-! ## C3: unsupported request kinds -/

/-- C3 counterexample: with the request kind bogus, create does NOT reject —
it resolves with the session, because launchOrAttach is started without
being awaited and its rejection never reaches create's caller.  The
unsupported-request error exists only inside the floating launchOrAttach
promise. -/
theorem c3_create_resolves_counterexample :
    (create initManager "s1"
      { type := "node", request := "bogus", fields := [] }).2.1 = Except.ok "s1" ∧
    launchOrAttach { type := "node", request := "bogus", fields := [] } =
      Except.error "Unsupported request bogus type." := by
  constructor
  · rfl
  · rfl

/-- C3 amended: for every configuration whose request kind is neither launch
nor attach, launchOrAttach fails with the unsupported-request error before
any adapter request is sent; create itself still resolves with the session,
sends no initialize, launch or attach request, registers the session in the
session map, and never changes the active session id. -/
theorem c3_unsupported_request :
    ∀ (st : ManagerState) (sid : String) (cfg : DebugConfiguration),
      cfg.request ≠ "launch" → cfg.request ≠ "attach" →
      launchOrAttach cfg =
        Except.error ("Unsupported request " ++ cfg.request ++ " type.") ∧
      (create st sid cfg).2.1 = Except.ok sid ∧
      (create st sid cfg).2.2 = [] ∧
      (create st sid cfg).1.sessions =
        mapSet st.sessions sid { sessionId := sid, configuration := cfg } ∧
      (create st sid cfg).1.active = st.active := by
  intro st sid cfg hl ha
  have hla : launchOrAttach cfg =
      Except.error ("Unsupported request " ++ cfg.request ++ " type.") := by
    unfold launchOrAttach
    rw [if_neg ha, if_neg hl]
  refine ⟨hla, ?_, ?_, ?_, ?_⟩ <;> simp [create, hla]

/-- Witness for C3 amended at the bogus configuration. -/
theorem c3_unsupported_request_witness :
    ("bogus" : String) ≠ "launch" ∧ ("bogus" : String) ≠ "attach" ∧
    (create initManager "s1"
      { type := "node", request := "bogus", fields := [] }).2.2 = [] ∧
    (create initManager "s1"
      { type := "node", request := "bogus", fields := [] }).1.active = none :=
  ⟨by decide, by decide,
   (c3_unsupported_request initManager "s1"
     { type := "node", request := "bogus", fields := [] }
     (by decide) (by decide)).2.2.1,
   (c3_unsupported_request initManager "s1"
     { type := "node", request := "bogus", fields := [] }
     (by decide) (by decide)).2.2.2.2⟩

/-! ## C9: restart preserves the session -/

theorem restart_attach_eq (s : DebugSession) (h : s.configuration.request = "attach") :
    restart s = (["disconnect", "initialize", "attach"],
      { s with configuration := attachedConfig s.configuration }) := by
  unfold restart launchOrAttach
  rw [if_pos h]

theorem restart_launch_eq (s : DebugSession) (hl : s.configuration.request = "launch")
    (ha : s.configuration.request ≠ "attach") :
    restart s = (["disconnect", "initialize", "launch"],
      { s with configuration := launchedConfig s.configuration }) := by
  unfold restart launchOrAttach
  rw [if_neg ha, if_pos hl]

theorem restart_other_eq (s : DebugSession) (hl : s.configuration.request ≠ "launch")
    (ha : s.configuration.request ≠ "attach") :
    restart s = (["disconnect"], s) := by
  unfold restart launchOrAttach
  rw [if_neg ha, if_neg hl]

/-- C9: restart first sends disconnect carrying `restart: true` and then
re-runs launchOrAttach on the very same session: the session id is
preserved, the request kind and adapter type of the configuration are
preserved, and every configuration field other than the merged markers
`__restart` and `noDebug` keeps its value.  Moreover, for a session whose
configuration already carries the markers — which every restarted session
does, since restart is only reachable after a successful launchOrAttach
merged them — the configuration record is completely unchanged. -/
theorem c9_restart_preserves_session :
    ∀ s : DebugSession,
      (restart s).2.sessionId = s.sessionId ∧
      (restart s).1.head? = some "disconnect" ∧
      mapLookup restartDisconnectArgs "restart" = some (CVal.bool true) ∧
      (restart s).2.configuration.request = s.configuration.request ∧
      (restart s).2.configuration.type = s.configuration.type ∧
      (∀ k : String, k ≠ "__restart" → k ≠ "noDebug" →
        mapLookup (restart s).2.configuration.fields k =
          mapLookup s.configuration.fields k) ∧
      (mapLookup s.configuration.fields "__restart" = some (CVal.bool false) →
        (s.configuration.request = "launch" →
          mapLookup s.configuration.fields "noDebug" = some (CVal.bool false)) →
        (restart s).2 = s) := by
  intro s
  by_cases hat : s.configuration.request = "attach"
  · rw [restart_attach_eq s hat]
    refine ⟨rfl, rfl, rfl, rfl, rfl, ?_, ?_⟩
    · intro k hk1 _
      exact mapSet_lookup_ne s.configuration.fields "__restart" k (CVal.bool false) hk1
    · intro hr _
      have hfe : mapSet s.configuration.fields "__restart" (CVal.bool false) =
          s.configuration.fields := mapSet_eq_self _ _ _ hr
      simp [attachedConfig, hfe]
  · by_cases hla : s.configuration.request = "launch"
    · rw [restart_launch_eq s hla hat]
      refine ⟨rfl, rfl, rfl, rfl, rfl, ?_, ?_⟩
      · intro k hk1 hk2
        have h1 := mapSet_lookup_ne
          (mapSet s.configuration.fields "__restart" (CVal.bool false)) "noDebug" k
          (CVal.bool false) hk2
        have h2 := mapSet_lookup_ne s.configuration.fields "__restart" k
          (CVal.bool false) hk1
        exact h1.trans h2
      · intro hr hn
        have hfe1 : mapSet s.configuration.fields "__restart" (CVal.bool false) =
            s.configuration.fields := mapSet_eq_self _ _ _ hr
        have hfe2 : mapSet s.configuration.fields "noDebug" (CVal.bool false) =
            s.configuration.fields := mapSet_eq_self _ _ _ (hn hla)
        simp [launchedConfig, hfe1, hfe2]
    · rw [restart_other_eq s hla hat]
      exact ⟨rfl, rfl, rfl, rfl, rfl, fun k _ _ => rfl, fun _ _ => rfl⟩

/-- Witness for C9: a concrete launch session that already went through
launchOrAttach restarts with its configuration record untouched and its id
preserved. -/
theorem c9_restart_preserves_session_witness :
    mapLookup sampleLaunchedSession.configuration.fields "__restart" =
      some (CVal.bool false) ∧
    (restart sampleLaunchedSession).2 = sampleLaunchedSession ∧
    (restart sampleLaunchedSession).1.head? = some "disconnect" :=
  ⟨by decide,
   (c9_restart_preserves_session sampleLaunchedSession).2.2.2.2.2.2
     (by decide) (fun _ => by decide),
   (c9_restart_preserves_session sampleLaunchedSession).2.1⟩

/-! ## C8: removing sessions and the active pointer -/

/-- C8: removing the session the manager currently points at as active (the
active pointer is truthy only for nonempty ids, which is what every caller
supplies) promotes the first remaining registered session to active when one
remains — and that promoted id is indeed a remaining session — or clears the
active pointer to none when the registry becomes empty; removing any session
the active pointer does not name leaves the active pointer unchanged. -/
theorem c8_remove_active_session :
    ∀ (st : ManagerState) (sid : String),
      (st.active = some sid → sid ≠ "" →
        (mapDelete st.sessions sid = [] → (remove st sid).active = none) ∧
        (∀ p : String × DebugSession, (mapDelete st.sessions sid).head? = some p →
          (remove st sid).active = some p.1 ∧
          mapLookup (remove st sid).sessions p.1 = some p.2)) ∧
      (st.active ≠ some sid → (remove st sid).active = st.active) := by
  intro st sid
  constructor
  · intro ha hne
    constructor
    · intro hrem
      simp [remove, setActiveDebugSession, truthyStr, ha, hne, hrem]
    · intro p hp
      have hpm : p ∈ mapDelete st.sessions sid := by
        cases hmd : mapDelete st.sessions sid with
        | nil =>
          rw [hmd] at hp
          simp at hp
        | cons q l =>
          rw [hmd] at hp
          simp at hp
          subst hp
          exact List.mem_cons_self q l
      have hp1 : p.1 ≠ sid := mem_mapDelete_key_ne st.sessions sid p hpm
      have hlp : mapLookup (mapDelete st.sessions sid) p.1 = some p.2 :=
        head?_mapLookup _ p hp
      have hnil : mapDelete st.sessions sid ≠ [] := by
        intro h
        rw [h] at hp
        simp at hp
      constructor
      · simp [remove, setActiveDebugSession, truthyStr, ha, hne, hp, hnil, hlp,
          Ne.symm hp1, hp1]
      · simp [remove, setActiveDebugSession, truthyStr, ha, hne, hp, hnil, hlp,
          Ne.symm hp1, hp1]
  · intro hna
    simp [remove, setActiveDebugSession, truthyStr, hna]

/-- Witness for C8 at concrete managers: removing the active session s1 with
s2 remaining promotes s2; removing the last session clears the active
pointer; removing the non-active session s2 leaves s1 active. -/
theorem c8_remove_active_session_witness :
    ("s1" : String) ≠ "" ∧
    (remove { sessions := [("s1", ⟨"s1", ⟨"node", "attach", []⟩⟩),
                           ("s2", ⟨"s2", ⟨"node", "attach", []⟩⟩)],
              active := some "s1" } "s1").active = some "s2" ∧
    (remove { sessions := [("s1", ⟨"s1", ⟨"node", "attach", []⟩⟩)],
              active := some "s1" } "s1").active = none ∧
    (remove { sessions := [("s1", ⟨"s1", ⟨"node", "attach", []⟩⟩),
                           ("s2", ⟨"s2", ⟨"node", "attach", []⟩⟩)],
              active := some "s1" } "s2").active = some "s1" :=
  ⟨by decide,
   (((c8_remove_active_session
       { sessions := [("s1", ⟨"s1", ⟨"node", "attach", []⟩⟩),
                      ("s2", ⟨"s2", ⟨"node", "attach", []⟩⟩)],
         active := some "s1" } "s1").1 rfl (by decide)).2
     ("s2", ⟨"s2", ⟨"node", "attach", []⟩⟩) (by decide)).1,
   ((c8_remove_active_session
       { sessions := [("s1", ⟨"s1", ⟨"node", "attach", []⟩⟩)],
         active := some "s1" } "s1").1 rfl (by decide)).1 (by decide),
   (c8_remove_active_session
       { sessions := [("s1", ⟨"s1", ⟨"node", "attach", []⟩⟩),
                      ("s2", ⟨"s2", ⟨"node", "attach", []⟩⟩)],
         active := some "s1" } "s2").2 (by decide)⟩

/-! ## C7: thread identity across refreshes -/

theorem updateThreads_fold_preserved (existing : List (Nat × DebugThread))
    (details : Option StoppedDetails) (raws : List RawThread)
    (acc : List (Nat × DebugThread) × Nat) (id : Nat) (t : DebugThread)
    (hex : mapLookup existing id = some t)
    (hd : id ∈ raws.map RawThread.id ∨
      ∃ u, mapLookup acc.1 id = some u ∧ u.tag = t.tag) :
    ∃ u, mapLookup (raws.foldl (updateThreadsStep existing details) acc).1 id = some u ∧
      u.tag = t.tag := by
  induction raws generalizing acc with
  | nil =>
    rcases hd with hd | hd
    · simp at hd
    · simpa using hd
  | cons raw rest ih =>
    rw [List.foldl_cons]
    by_cases hri : raw.id = id
    · have hle : mapLookup existing raw.id = some t := by rw [hri]; exact hex
      have hstep : updateThreadsStep existing details acc raw =
          (mapSet acc.1 raw.id { t with data := refreshedData raw details }, acc.2) := by
        simp [updateThreadsStep, hle]
      refine ih _ (Or.inr ⟨{ t with data := refreshedData raw details }, ?_, rfl⟩)
      rw [hstep]
      rw [← hri]
      exact mapSet_lookup_self acc.1 raw.id _
    · have hlk : ∀ v, mapLookup (mapSet acc.1 raw.id v) id = mapLookup acc.1 id :=
        fun v => mapSet_lookup_ne acc.1 raw.id id v (fun he => hri he.symm)
      rcases hd with hd | hd
      · rcases List.mem_map.1 hd with ⟨r, hr, hrid⟩
        rcases List.mem_cons.1 hr with hr | hr
        · exact absurd (hr ▸ hrid) hri
        · refine ih _ (Or.inl (List.mem_map.2 ⟨r, hr, hrid⟩))
      · obtain ⟨u, hu, hutag⟩ := hd
        refine ih _ (Or.inr ⟨u, ?_, hutag⟩)
        cases hle : mapLookup existing raw.id with
        | some t' => simpa [updateThreadsStep, hle, hlk] using hu
        | none => simpa [updateThreadsStep, hle, hlk] using hu

theorem updateThreads_fold_fresh (existing : List (Nat × DebugThread))
    (details : Option StoppedDetails) (c0 : Nat) (raws : List RawThread)
    (acc : List (Nat × DebugThread) × Nat) (id : Nat)
    (hex : mapLookup existing id = none) (hcnt : c0 ≤ acc.2)
    (hd : id ∈ raws.map RawThread.id ∨
      ∃ u, mapLookup acc.1 id = some u ∧ c0 ≤ u.tag) :
    ∃ u, mapLookup (raws.foldl (updateThreadsStep existing details) acc).1 id = some u ∧
      c0 ≤ u.tag := by
  induction raws generalizing acc with
  | nil =>
    rcases hd with hd | hd
    · simp at hd
    · simpa using hd
  | cons raw rest ih =>
    rw [List.foldl_cons]
    by_cases hri : raw.id = id
    · have hle : mapLookup existing raw.id = none := by rw [hri]; exact hex
      have hstep : updateThreadsStep existing details acc raw =
          (mapSet acc.1 raw.id { tag := acc.2, data := refreshedData raw details },
            acc.2 + 1) := by
        simp [updateThreadsStep, hle]
      refine ih _ (by rw [hstep]; exact Nat.le_succ_of_le hcnt) ?_
      refine Or.inr ⟨{ tag := acc.2, data := refreshedData raw details }, ?_, hcnt⟩
      rw [hstep, ← hri]
      exact mapSet_lookup_self acc.1 raw.id _
    · have hlk : ∀ v, mapLookup (mapSet acc.1 raw.id v) id = mapLookup acc.1 id :=
        fun v => mapSet_lookup_ne acc.1 raw.id id v (fun he => hri he.symm)
      have hcnt' : c0 ≤ (updateThreadsStep existing details acc raw).2 := by
        cases hle : mapLookup existing raw.id with
        | some t' => simpa [updateThreadsStep, hle] using hcnt
        | none =>
          simp [updateThreadsStep, hle]
          exact Nat.le_succ_of_le hcnt
      refine ih _ hcnt' ?_
      rcases hd with hd | hd
      · rcases List.mem_map.1 hd with ⟨r, hr, hrid⟩
        rcases List.mem_cons.1 hr with hr | hr
        · exact absurd (hr ▸ hrid) hri
        · exact Or.inl (List.mem_map.2 ⟨r, hr, hrid⟩)
      · obtain ⟨u, hu, hutag⟩ := hd
        refine Or.inr ⟨u, ?_, hutag⟩
        cases hle : mapLookup existing raw.id with
        | some t' => simpa [updateThreadsStep, hle, hlk] using hu
        | none => simpa [updateThreadsStep, hle, hlk] using hu

theorem updateThreads_fold_dropped (existing : List (Nat × DebugThread))
    (details : Option StoppedDetails) (raws : List RawThread)
    (acc : List (Nat × DebugThread) × Nat) (id : Nat)
    (hnm : id ∉ raws.map RawThread.id) (hacc : mapLookup acc.1 id = none) :
    mapLookup (raws.foldl (updateThreadsStep existing details) acc).1 id = none := by
  induction raws generalizing acc with
  | nil => simpa using hacc
  | cons raw rest ih =>
    rw [List.foldl_cons]
    have hri : raw.id ≠ id := by
      intro he
      exact hnm (List.mem_map.2 ⟨raw, List.mem_cons_self raw rest, he⟩)
    have hnm' : id ∉ rest.map RawThread.id := by
      intro hm
      rcases List.mem_map.1 hm with ⟨r, hr, hrid⟩
      exact hnm (List.mem_map.2 ⟨r, List.mem_cons_of_mem raw hr, hrid⟩)
    refine ih _ hnm' ?_
    cases hle : mapLookup existing raw.id with
    | some t' =>
      simpa [updateThreadsStep, hle, mapSet_lookup_ne acc.1 raw.id id _ (Ne.symm hri)]
        using hacc
    | none =>
      simpa [updateThreadsStep, hle, mapSet_lookup_ne acc.1 raw.id id _ (Ne.symm hri)]
        using hacc

/-- C7: a threads refresh preserves object identity — the allocation tag —
for every id known both before and after (so listeners attached to that
object keep firing), constructs a strictly fresh object exactly for the ids
not previously known (its tag is none of the pre-refresh tags, given that
pre-refresh tags are below the allocation counter, as they are by
construction), and drops every id absent from the new list. -/
theorem c7_thread_refresh_identity :
    ∀ (s : SessionState) (raws : List RawThread) (details : Option StoppedDetails),
      (∀ id t, mapLookup s.threads id = some t → id ∈ raws.map RawThread.id →
        ∃ u, mapLookup (updateThreads s raws details).threads id = some u ∧
          u.tag = t.tag) ∧
      (∀ id, mapLookup s.threads id = none → id ∈ raws.map RawThread.id →
        ∃ u, mapLookup (updateThreads s raws details).threads id = some u ∧
          s.fresh ≤ u.tag ∧
          ((∀ q ∈ s.threads, q.2.tag < s.fresh) →
            ∀ q ∈ s.threads, q.2.tag ≠ u.tag)) ∧
      (∀ id, id ∉ raws.map RawThread.id →
        mapLookup (updateThreads s raws details).threads id = none) := by
  intro s raws details
  refine ⟨?_, ?_, ?_⟩
  · intro id t hex hm
    exact updateThreads_fold_preserved s.threads details raws ([], s.fresh) id t hex
      (Or.inl hm)
  · intro id hex hm
    obtain ⟨u, hu, htag⟩ := updateThreads_fold_fresh s.threads details s.fresh raws
      ([], s.fresh) id hex (Nat.le_refl s.fresh) (Or.inl hm)
    exact ⟨u, hu, htag, fun hb q hq => Nat.ne_of_lt (Nat.lt_of_lt_of_le (hb q hq) htag)⟩
  · intro id hnm
    exact updateThreads_fold_dropped s.threads details raws ([], s.fresh) id hnm rfl

/-- Witness for C7 at a concrete refresh: id 1 survives with its tag 0 (the
same object), id 2 is new with a tag at least the allocation counter 1, and
a refresh reporting only id 2 drops id 1. -/
theorem c7_thread_refresh_identity_witness :
    mapLookup [(1, (⟨0, ⟨⟨1, "main"⟩, none⟩⟩ : DebugThread))] 1 =
      some ⟨0, ⟨⟨1, "main"⟩, none⟩⟩ ∧
    (∃ u, mapLookup (updateThreads
        { threads := [(1, ⟨0, ⟨⟨1, "main"⟩, none⟩⟩)], current := none, fresh := 1 }
        [⟨1, "main"⟩, ⟨2, "w"⟩] none).threads 1 = some u ∧ u.tag = 0) ∧
    (∃ u, mapLookup (updateThreads
        { threads := [(1, ⟨0, ⟨⟨1, "main"⟩, none⟩⟩)], current := none, fresh := 1 }
        [⟨1, "main"⟩, ⟨2, "w"⟩] none).threads 2 = some u ∧ 1 ≤ u.tag) ∧
    mapLookup (updateThreads
        { threads := [(1, ⟨0, ⟨⟨1, "main"⟩, none⟩⟩)], current := none, fresh := 1 }
        [⟨2, "w"⟩] none).threads 1 = none := by
  refine ⟨by decide, ?_, ?_, ?_⟩
  · exact (c7_thread_refresh_identity
      { threads := [(1, ⟨0, ⟨⟨1, "main"⟩, none⟩⟩)], current := none, fresh := 1 }
      [⟨1, "main"⟩, ⟨2, "w"⟩] none).1 1 ⟨0, ⟨⟨1, "main"⟩, none⟩⟩ (by decide) (by decide)
  · obtain ⟨u, hu, htag, _⟩ := (c7_thread_refresh_identity
      { threads := [(1, ⟨0, ⟨⟨1, "main"⟩, none⟩⟩)], current := none, fresh := 1 }
      [⟨1, "main"⟩, ⟨2, "w"⟩] none).2.1 2 (by decide) (by decide)
    exact ⟨u, hu, htag⟩
  · exact (c7_thread_refresh_identity
      { threads := [(1, ⟨0, ⟨⟨1, "main"⟩, none⟩⟩)], current := none, fresh := 1 }
      [⟨2, "w"⟩] none).2.2 1 (by decide)
